import Mathlib

/-!
# Verification of the bulk-association operation tracker

Shallow embedding of `backend/routes/collections.py`: the operation data
model (`OperationStatus` / `operations_store` entries), the background
worker `add_companies_to_collection_task`, and the two dispatch endpoints
`add_companies_to_collection` (add selected) and
`add_all_companies_to_collection` (add all).

Modelling conventions:
- The membership table (`company_collection_associations`) is a list of
  `Assoc` pairs; the database uniqueness constraint `uq_company_collection`
  is modelled inside `dbInsert`-like logic of the worker loop: inserting a
  pair already present raises an error whose text contains the constraint
  name, exactly what line 138 of the source tests with
  `"uq_company_collection" not in str(e)`.
- Arbitrary persistence failures (the fatal branch of the source's
  `except`) are modelled by a fault oracle `fault : Nat → Option String`:
  `fault i = some msg` means the insert attempt at loop position `i`
  raises an exception whose `str(e)` is `msg`; `fault i = none` means the
  attempt behaves according to the table contents.
- The worker is a pure function returning the full ordered list of states
  of the operation record that a status poll could observe (one entry per
  store mutation, starting from the registration state written by the
  coordinator), together with the final operation record and the final
  membership table.
-/

/-- Operation lifecycle status, the string field `status` of the source's
`OperationStatus` model: "pending", "in_progress", "completed", "failed". -/
inductive Status
  | pending
  | inProgress
  | completed
  | failed
deriving DecidableEq, Repr

/-- One entry of `operations_store`: the mutable operation record
(`operation_id` itself is omitted: every function here works on the single
record owned by one worker). -/
structure Operation where
  status : Status
  progress : Nat
  total : Nat
  error_message : Option String
deriving DecidableEq, Repr

/-- A row of the membership table: `CompanyCollectionAssociation`. -/
structure Assoc where
  company_id : Nat
  collection_id : Nat
deriving DecidableEq, Repr

/-- The membership table, unique per (company_id, collection_id) pair. -/
abbrev DB := List Assoc

/-- Substring test on character lists: `pat` occurs inside the second
list.  Models Python's `x in y` on strings. -/
def hasSub (pat : List Char) : List Char → Bool
  | [] => pat.isEmpty
  | c :: rest => pat.isPrefixOf (c :: rest) || hasSub pat rest

/-- The source's duplicate test (line 138): the exception text contains
the constraint name `uq_company_collection`. -/
def isDupErr (msg : String) : Bool :=
  hasSub "uq_company_collection".data msg.data

/-- The working set (lines 110-119 of the source): requested ids whose
association with the target collection is not already present.  List
order (and any duplicates inside the request list) are preserved, exactly
as the source's list comprehension does. -/
def workingSet (company_ids : List Nat) (target : Nat) (db : DB) : List Nat :=
  company_ids.filter (fun cid => decide ((⟨cid, target⟩ : Assoc) ∉ db))

/-- The per-record insertion loop (lines 124-139).  Arguments: fault
oracle, target collection id, current loop index `i`, remaining working
set, current operation record, current membership table.  Returns the
list of observable operation states produced from here on (including the
terminal-state writes of lines 141 and 144-145), the final operation
record, and the final table.

Branches, following the source exactly:
- exhausted list: line 141 sets status to completed;
- attempt raises (fault oracle fires): if the text names the uniqueness
  constraint, skip and continue (lines 135-138); otherwise re-raise, so
  the outer handler sets status to failed and then error_message
  (lines 143-145) and the loop stops;
- attempt does not raise: if the pair is already present the database
  itself raises the uniqueness violation (whose text names the
  constraint), which is skipped; otherwise the row is inserted and
  line 133 sets progress to `i + 1`. -/
def runLoop (fault : Nat → Option String) (target : Nat) :
    Nat → List Nat → Operation → DB → List Operation × Operation × DB
  | _, [], op, db =>
      ([{ op with status := .completed }], { op with status := .completed }, db)
  | i, cid :: rest, op, db =>
      match fault i with
      | some msg =>
          if isDupErr msg then
            runLoop fault target (i + 1) rest op db
          else
            ([{ op with status := .failed },
              { op with status := .failed, error_message := some msg }],
             { op with status := .failed, error_message := some msg }, db)
      | none =>
          if (⟨cid, target⟩ : Assoc) ∈ db then
            runLoop fault target (i + 1) rest op db
          else
            (({ op with progress := i + 1 } : Operation) ::
               (runLoop fault target (i + 1) rest { op with progress := i + 1 }
                 ((⟨cid, target⟩ : Assoc) :: db)).1,
             (runLoop fault target (i + 1) rest { op with progress := i + 1 }
               ((⟨cid, target⟩ : Assoc) :: db)).2)

/-- The background worker `add_companies_to_collection_task`
(lines 98-148), composed with the registration state the coordinator
wrote just before dispatching (lines 183-189 / 232-238): the returned
list is every state of the operation record observable by a status poll,
in order.  States:
1. registration: status pending, progress 0, total = len(company_ids);
2. line 107: status becomes in_progress;
3. line 108: total written again with len(company_ids) (same value);
4. line 121: total revised to the working-set size;
then one state per mutation performed by the loop.
`source_collection_id` is accepted and unused, as in the source. -/
def add_companies_to_collection_task (fault : Nat → Option String)
    (company_ids : List Nat) (source_collection_id target_collection_id : Nat)
    (db : DB) : List Operation × Operation × DB :=
  (⟨.pending, 0, company_ids.length, none⟩ ::
   ⟨.inProgress, 0, company_ids.length, none⟩ ::
   ⟨.inProgress, 0, company_ids.length, none⟩ ::
   ⟨.inProgress, 0, (workingSet company_ids target_collection_id db).length, none⟩ ::
   (runLoop fault target_collection_id 0 (workingSet company_ids target_collection_id db)
      ⟨.inProgress, 0, (workingSet company_ids target_collection_id db).length, none⟩ db).1,
   (runLoop fault target_collection_id 0 (workingSet company_ids target_collection_id db)
      ⟨.inProgress, 0, (workingSet company_ids target_collection_id db).length, none⟩ db).2)

/-- Client-visible dispatch errors of the two POST endpoints. -/
inductive ApiError
  | collectionNotFound
  | invalidMembership
deriving DecidableEq, Repr

/-- What a successful dispatch call produces: the registered operation
record and the arguments handed to the background task. -/
structure Dispatch where
  registered : Operation
  company_ids : List Nat
  source_collection_id : Nat
  target_collection_id : Nat
deriving DecidableEq, Repr

/-- The add-selected endpoint `add_companies_to_collection`
(lines 152-205).  Collections are a list of collection ids.  Validation,
following the source exactly: 404 if either collection is missing; then,
only when the request list is non-empty, the set of distinct requested
ids present in the source collection is compared against the length of
the request list, and a mismatch raises the invalid-membership client
error (lines 169-180).  On success the operation is registered with
status pending, progress 0, total = len(request.company_ids). -/
def add_companies_to_collection (collections : List Nat) (db : DB)
    (source_collection_id target_collection_id : Nat)
    (company_ids : List Nat) : Except ApiError Dispatch :=
  if source_collection_id ∈ collections ∧ target_collection_id ∈ collections then
    if company_ids.isEmpty then
      .ok ⟨⟨.pending, 0, company_ids.length, none⟩, company_ids,
           source_collection_id, target_collection_id⟩
    else
      if ((company_ids.filter (fun cid =>
            decide ((⟨cid, source_collection_id⟩ : Assoc) ∈ db))).dedup).length
          = company_ids.length then
        .ok ⟨⟨.pending, 0, company_ids.length, none⟩, company_ids,
             source_collection_id, target_collection_id⟩
      else .error .invalidMembership
  else .error .collectionNotFound

/-- The add-all endpoint `add_all_companies_to_collection`
(lines 208-254): the member list is the source collection's current
membership, in table order; no membership-subset validation. -/
def add_all_companies_to_collection (collections : List Nat) (db : DB)
    (source_collection_id target_collection_id : Nat) : Except ApiError Dispatch :=
  if source_collection_id ∈ collections ∧ target_collection_id ∈ collections then
    .ok ⟨⟨.pending, 0,
          ((db.filter (fun a => decide (a.collection_id = source_collection_id))).map
            (fun a => a.company_id)).length, none⟩,
         (db.filter (fun a => decide (a.collection_id = source_collection_id))).map
           (fun a => a.company_id),
         source_collection_id, target_collection_id⟩
  else .error .collectionNotFound

/-- The fault oracle of a run with no injected persistence failures. -/
def noFault : Nat → Option String := fun _ => none

/-- Observation function: the position and message of the first fatal
(non-duplicate) insertion failure the loop meets when started at index
`i` on the given working set and table, or `none` when the loop runs to
completion. -/
def firstFatal (fault : Nat → Option String) (target : Nat) :
    Nat → List Nat → DB → Option (Nat × String)
  | _, [], _ => none
  | i, cid :: rest, db =>
      match fault i with
      | some msg =>
          if isDupErr msg then firstFatal fault target (i + 1) rest db
          else some (i, msg)
      | none =>
          if (⟨cid, target⟩ : Assoc) ∈ db then firstFatal fault target (i + 1) rest db
          else firstFatal fault target (i + 1) rest ((⟨cid, target⟩ : Assoc) :: db)

/-- Observation function: the loop positions at which an insertion
succeeds, in order, stopping at the first fatal failure. -/
def successIdxs (fault : Nat → Option String) (target : Nat) :
    Nat → List Nat → DB → List Nat
  | _, [], _ => []
  | i, cid :: rest, db =>
      match fault i with
      | some msg =>
          if isDupErr msg then successIdxs fault target (i + 1) rest db else []
      | none =>
          if (⟨cid, target⟩ : Assoc) ∈ db then successIdxs fault target (i + 1) rest db
          else i :: successIdxs fault target (i + 1) rest ((⟨cid, target⟩ : Assoc) :: db)

/-- Relation between two observable operation states used to express the
terminal-state invariant: a terminal status is preserved, and a set
error message is preserved. -/
def opStep (a b : Operation) : Prop :=
  ((a.status = .completed ∨ a.status = .failed) → b.status = a.status) ∧
  (∀ m, a.error_message = some m → b.error_message = some m)

/-! ## Unfolding equations for the insertion loop -/

theorem runLoop_nil (fault : Nat → Option String) (target i : Nat)
    (op : Operation) (db : DB) :
    runLoop fault target i [] op db =
      ([{ op with status := .completed }], { op with status := .completed }, db) := rfl

theorem runLoop_fatal_eq (fault : Nat → Option String) (target i cid : Nat)
    (rest : List Nat) (op : Operation) (db : DB) (msg : String)
    (hf : fault i = some msg) (hd : ¬ isDupErr msg = true) :
    runLoop fault target i (cid :: rest) op db =
      ([{ op with status := .failed },
        { op with status := .failed, error_message := some msg }],
       { op with status := .failed, error_message := some msg }, db) := by
  simp only [runLoop]
  rw [hf]
  simp [hd]

theorem runLoop_skipFault_eq (fault : Nat → Option String) (target i cid : Nat)
    (rest : List Nat) (op : Operation) (db : DB) (msg : String)
    (hf : fault i = some msg) (hd : isDupErr msg = true) :
    runLoop fault target i (cid :: rest) op db =
      runLoop fault target (i + 1) rest op db := by
  simp only [runLoop]
  rw [hf]
  simp [hd]

theorem runLoop_skipDup_eq (fault : Nat → Option String) (target i cid : Nat)
    (rest : List Nat) (op : Operation) (db : DB)
    (hf : fault i = none) (hm : (⟨cid, target⟩ : Assoc) ∈ db) :
    runLoop fault target i (cid :: rest) op db =
      runLoop fault target (i + 1) rest op db := by
  simp only [runLoop]
  rw [hf]
  simp [hm]

theorem runLoop_insert_eq (fault : Nat → Option String) (target i cid : Nat)
    (rest : List Nat) (op : Operation) (db : DB)
    (hf : fault i = none) (hm : ¬ (⟨cid, target⟩ : Assoc) ∈ db) :
    runLoop fault target i (cid :: rest) op db =
      (({ op with progress := i + 1 } : Operation) ::
         (runLoop fault target (i + 1) rest { op with progress := i + 1 }
           ((⟨cid, target⟩ : Assoc) :: db)).1,
       (runLoop fault target (i + 1) rest { op with progress := i + 1 }
         ((⟨cid, target⟩ : Assoc) :: db)).2) := by
  simp only [runLoop]
  rw [hf]
  simp [hm]

/-- Every state the loop emits keeps the total it was given, and its
progress stays within the index range still to be processed. -/
theorem runLoop_state_bound (fault : Nat → Option String) (target : Nat) :
    ∀ (todo : List Nat) (i : Nat) (op : Operation) (db : DB),
      op.progress ≤ i →
      ∀ s ∈ (runLoop fault target i todo op db).1,
        s.total = op.total ∧ s.progress ≤ i + todo.length := by
  intro todo
  induction todo with
  | nil =>
      intro i op db hp s hs
      rw [runLoop_nil] at hs
      simp only [List.mem_singleton] at hs
      subst hs
      exact ⟨rfl, by simpa using hp⟩
  | cons cid rest ih =>
      intro i op db hp s hs
      rcases hf : fault i with _ | msg
      · by_cases hm : (⟨cid, target⟩ : Assoc) ∈ db
        · rw [runLoop_skipDup_eq fault target i cid rest op db hf hm] at hs
          have := ih (i + 1) op db (Nat.le_succ_of_le hp) s hs
          refine ⟨this.1, ?_⟩
          have h2 := this.2
          simp only [List.length_cons]
          omega
        · rw [runLoop_insert_eq fault target i cid rest op db hf hm] at hs
          simp only [List.mem_cons] at hs
          rcases hs with hs | hs
          · subst hs
            refine ⟨rfl, ?_⟩
            simp only [List.length_cons]
            omega
          · have := ih (i + 1) { op with progress := i + 1 }
              ((⟨cid, target⟩ : Assoc) :: db) (Nat.le_refl _) s hs
            exact ⟨this.1, by simp only [List.length_cons]; omega⟩
      · by_cases hd : isDupErr msg = true
        · rw [runLoop_skipFault_eq fault target i cid rest op db msg hf hd] at hs
          have := ih (i + 1) op db (Nat.le_succ_of_le hp) s hs
          exact ⟨this.1, by simp only [List.length_cons]; omega⟩
        · rw [runLoop_fatal_eq fault target i cid rest op db msg hf hd] at hs
          simp only [List.mem_cons, List.not_mem_nil, or_false] at hs
          rcases hs with hs | hs <;> subst hs <;>
            exact ⟨rfl, by simp only [List.length_cons]; omega⟩

/-- Claim C2: at every point in an operation's lifetime observable by a
status poll, progress is less than or equal to total. -/
theorem poll_progress_le_total (fault : Nat → Option String)
    (company_ids : List Nat) (source target : Nat) (db : DB) :
    ∀ s ∈ (add_companies_to_collection_task fault company_ids source target db).1,
      s.progress ≤ s.total := by
  intro s hs
  simp only [add_companies_to_collection_task, List.mem_cons] at hs
  rcases hs with h | h | h | h | h
  · subst h; exact Nat.zero_le _
  · subst h; exact Nat.zero_le _
  · subst h; exact Nat.zero_le _
  · subst h; exact Nat.zero_le _
  · have hb := runLoop_state_bound fault target (workingSet company_ids target db) 0
      ⟨.inProgress, 0, (workingSet company_ids target db).length, none⟩ db
      (Nat.le_refl 0) s h
    rcases hb with ⟨ht, hp⟩
    rw [ht]
    simpa using hp

theorem poll_progress_le_total_witness :
    (⟨Status.completed, 0, 0, none⟩ : Operation).progress ≤
      (⟨Status.completed, 0, 0, none⟩ : Operation).total :=
  poll_progress_le_total noFault [] 0 1 [] ⟨Status.completed, 0, 0, none⟩ (by decide)

/-- Counting complement: filtering by the negation of a predicate keeps
exactly the elements the predicate rejects. -/
theorem length_filter_not {α : Type} (p : α → Bool) (l : List α) :
    (l.filter (fun a => ! p a)).length = l.length - (l.filter p).length := by
  induction l with
  | nil => rfl
  | cons a l ih =>
      have hle : (l.filter p).length ≤ l.length := l.length_filter_le p
      by_cases h : p a = true
      · simp only [List.filter_cons, h, Bool.not_true, if_true, if_false,
          Bool.false_eq_true, List.length_cons]
        omega
      · simp only [List.filter_cons, h, Bool.not_eq_true] at *
        simp only [List.filter_cons, h, Bool.not_false, if_true, if_false,
          Bool.false_eq_true, List.length_cons]
        omega

/-- The working set's length is the request length minus the number of
requested ids already associated with the target. -/
theorem workingSet_length (company_ids : List Nat) (target : Nat) (db : DB) :
    (workingSet company_ids target db).length =
      company_ids.length -
        (company_ids.filter (fun cid => decide ((⟨cid, target⟩ : Assoc) ∈ db))).length := by
  have h := length_filter_not
    (fun cid => decide ((⟨cid, target⟩ : Assoc) ∈ db)) company_ids
  simpa [workingSet, decide_not] using h

/-- Claim C3: for a dispatched operation whose requested list holds N
distinct ids of which M already belong to the target collection, the
worker revises total to exactly N - M (the working-set size) while
progress is still 0 (the first three observable states all have
progress 0, and from the fourth state on total equals N - M), and total
is never revised after processing starts (every state from the fourth on,
in particular every state with positive progress, has total = N - M).
Distinctness of the request list makes the filter count below equal to
the claim's M; it holds for every dispatched list because add-selected
rejects duplicate-containing lists and add-all reads distinct rows. -/
theorem total_settles_before_progress (fault : Nat → Option String)
    (company_ids : List Nat) (source target : Nat) (db : DB)
    (hnd : company_ids.Nodup) :
    (∀ s ∈ (add_companies_to_collection_task fault company_ids source target db).1.take 3,
        s.progress = 0) ∧
    (∀ s ∈ (add_companies_to_collection_task fault company_ids source target db).1.drop 3,
        s.total = company_ids.length -
          (company_ids.filter (fun cid => decide ((⟨cid, target⟩ : Assoc) ∈ db))).length) ∧
    (∀ s ∈ (add_companies_to_collection_task fault company_ids source target db).1,
        0 < s.progress →
        s.total = company_ids.length -
          (company_ids.filter (fun cid => decide ((⟨cid, target⟩ : Assoc) ∈ db))).length) := by
  have hws := workingSet_length company_ids target db
  have hdrop : ∀ s ∈ (add_companies_to_collection_task fault company_ids source target db).1.drop 3,
      s.total = company_ids.length -
        (company_ids.filter (fun cid => decide ((⟨cid, target⟩ : Assoc) ∈ db))).length := by
    intro s hs
    simp only [add_companies_to_collection_task, List.drop_succ_cons, List.drop_zero,
      List.mem_cons] at hs
    rcases hs with hs | hs
    · subst hs
      simpa using hws
    · have hb := runLoop_state_bound fault target (workingSet company_ids target db) 0
        ⟨.inProgress, 0, (workingSet company_ids target db).length, none⟩ db
        (Nat.le_refl 0) s hs
      rw [hb.1]
      simpa using hws
  refine ⟨?_, hdrop, ?_⟩
  · intro s hs
    simp only [add_companies_to_collection_task, List.take_succ_cons, List.take_zero,
      List.mem_cons, List.not_mem_nil, or_false] at hs
    rcases hs with hs | hs | hs <;> subst hs <;> rfl
  · intro s hs hpos
    simp only [add_companies_to_collection_task, List.mem_cons] at hs
    rcases hs with h | h | h | h | h
    · subst h; exact absurd hpos (by simp)
    · subst h; exact absurd hpos (by simp)
    · subst h; exact absurd hpos (by simp)
    · subst h; simpa using hws
    · apply hdrop
      simp only [add_companies_to_collection_task, List.drop_succ_cons, List.drop_zero,
        List.mem_cons]
      exact Or.inr h

theorem total_settles_before_progress_witness :
    ([1, 2] : List Nat).Nodup ∧
    (⟨Status.inProgress, 0, 1, none⟩ : Operation).total =
      ([1, 2] : List Nat).length -
        (([1, 2] : List Nat).filter
          (fun cid => decide ((⟨cid, 1⟩ : Assoc) ∈ ([⟨2, 1⟩] : DB)))).length :=
  ⟨by decide,
   (total_settles_before_progress noFault [1, 2] 0 1 [⟨2, 1⟩] (by decide)).2.1
     ⟨Status.inProgress, 0, 1, none⟩ (by decide)⟩

/-- Characterization of a run whose loop meets a fatal failure: the final
operation record is failed, carries the fatal message, and its progress is
one plus the last successful position before the failure (the starting
progress when no insertion succeeded); the final table holds exactly one
new row per successful position. -/
theorem runLoop_fatal_char (fault : Nat → Option String) (target : Nat) :
    ∀ (todo : List Nat) (i : Nat) (op : Operation) (db : DB) (i0 : Nat) (msg : String),
      firstFatal fault target i todo db = some (i0, msg) →
      (runLoop fault target i todo op db).2.1 =
        ⟨.failed,
         (successIdxs fault target i todo db).foldl (fun _ j => j + 1) op.progress,
         op.total, some msg⟩ ∧
      (runLoop fault target i todo op db).2.2.length =
        db.length + (successIdxs fault target i todo db).length := by
  intro todo
  induction todo with
  | nil =>
      intro i op db i0 msg h
      simp [firstFatal] at h
  | cons cid rest ih =>
      intro i op db i0 msg h
      rcases hf : fault i with _ | m
      · by_cases hm : (⟨cid, target⟩ : Assoc) ∈ db
        · have hff : firstFatal fault target i (cid :: rest) db =
              firstFatal fault target (i + 1) rest db := by
            simp only [firstFatal]; rw [hf]; simp [hm]
          have hsi : successIdxs fault target i (cid :: rest) db =
              successIdxs fault target (i + 1) rest db := by
            simp only [successIdxs]; rw [hf]; simp [hm]
          rw [hff] at h
          rw [runLoop_skipDup_eq fault target i cid rest op db hf hm, hsi]
          exact ih (i + 1) op db i0 msg h
        · have hff : firstFatal fault target i (cid :: rest) db =
              firstFatal fault target (i + 1) rest ((⟨cid, target⟩ : Assoc) :: db) := by
            simp only [firstFatal]; rw [hf]; simp [hm]
          have hsi : successIdxs fault target i (cid :: rest) db =
              i :: successIdxs fault target (i + 1) rest ((⟨cid, target⟩ : Assoc) :: db) := by
            simp only [successIdxs]; rw [hf]; simp [hm]
          rw [hff] at h
          have hih := ih (i + 1) { op with progress := i + 1 }
            ((⟨cid, target⟩ : Assoc) :: db) i0 msg h
          rw [runLoop_insert_eq fault target i cid rest op db hf hm, hsi]
          constructor
          · simpa [List.foldl_cons] using hih.1
          · have h2 := hih.2
            simp only [List.length_cons] at h2 ⊢
            omega
      · by_cases hd : isDupErr m = true
        · have hff : firstFatal fault target i (cid :: rest) db =
              firstFatal fault target (i + 1) rest db := by
            simp only [firstFatal]; rw [hf]; simp [hd]
          have hsi : successIdxs fault target i (cid :: rest) db =
              successIdxs fault target (i + 1) rest db := by
            simp only [successIdxs]; rw [hf]; simp [hd]
          rw [hff] at h
          rw [runLoop_skipFault_eq fault target i cid rest op db m hf hd, hsi]
          exact ih (i + 1) op db i0 msg h
        · have hff : firstFatal fault target i (cid :: rest) db = some (i, m) := by
            simp only [firstFatal]; rw [hf]; simp [hd]
          rw [hff] at h
          simp only [Option.some.injEq, Prod.mk.injEq] at h
          have hsi : successIdxs fault target i (cid :: rest) db = [] := by
            simp only [successIdxs]; rw [hf]; simp [hd]
          rw [runLoop_fatal_eq fault target i cid rest op db m hf hd, hsi]
          obtain ⟨h1, h2⟩ := h
          subst h2
          exact ⟨rfl, by simp⟩

/-- The fault oracle of the C1 counterexample run: the insert attempt at
loop position 3 raises a non-duplicate persistence error. -/
def faultC1 : Nat → Option String := fun k => if k = 3 then some "disk error" else none

/-- Claim C1 counterexample: request [5, 5, 6, 7] into an empty target,
with a fatal persistence error at working-set position 3.  Position 0
inserts 5 (progress 1), position 1 is a duplicate-constraint skip,
position 2 inserts 6 (progress 3 = position + 1), position 3 fails
fatally.  The final state is failed with the fault's message, exactly 2
rows were inserted (2 successful insertions strictly before position 3),
yet progress is 3, not 2 as the claim states. -/
theorem fatal_progress_counterexample :
    (add_companies_to_collection_task faultC1 [5, 5, 6, 7] 0 1 []).2.1.status = Status.failed ∧
    (add_companies_to_collection_task faultC1 [5, 5, 6, 7] 0 1 []).2.1.error_message =
      some "disk error" ∧
    (add_companies_to_collection_task faultC1 [5, 5, 6, 7] 0 1 []).2.2.length = 2 ∧
    (add_companies_to_collection_task faultC1 [5, 5, 6, 7] 0 1 []).2.1.progress = 3 ∧
    (add_companies_to_collection_task faultC1 [5, 5, 6, 7] 0 1 []).2.1.progress ≠
      (add_companies_to_collection_task faultC1 [5, 5, 6, 7] 0 1 []).2.2.length := by
  refine ⟨rfl, rfl, rfl, rfl, by decide⟩

/-- Claim C1 (amended): if a fatal (non-duplicate) persistence error
occurs at working-set position i, the worker stops processing the
remaining members (the final table has exactly one new row per successful
position before i) and the final state has status failed, error_message
recording the failure's description, and progress equal to one plus the
working-set position of the last successful insertion strictly before i
(0 when no insertion before i succeeded) — not, as originally claimed,
the count of successful insertions before i.  The fold below computes
exactly that position-derived value over the list of successful
positions. -/
theorem fatal_failure_final_state (fault : Nat → Option String)
    (company_ids : List Nat) (source target : Nat) (db : DB) (i : Nat) (msg : String)
    (h : firstFatal fault target 0 (workingSet company_ids target db) db = some (i, msg)) :
    (add_companies_to_collection_task fault company_ids source target db).2.1 =
      ⟨.failed,
       (successIdxs fault target 0 (workingSet company_ids target db) db).foldl
         (fun _ j => j + 1) 0,
       (workingSet company_ids target db).length, some msg⟩ ∧
    (add_companies_to_collection_task fault company_ids source target db).2.2.length =
      db.length +
        (successIdxs fault target 0 (workingSet company_ids target db) db).length := by
  have hc := runLoop_fatal_char fault target (workingSet company_ids target db) 0
    ⟨.inProgress, 0, (workingSet company_ids target db).length, none⟩ db i msg h
  simpa [add_companies_to_collection_task] using hc

theorem fatal_failure_final_state_witness :
    firstFatal faultC1 1 0 (workingSet [5, 5, 6, 7] 1 []) [] = some (3, "disk error") ∧
    (add_companies_to_collection_task faultC1 [5, 5, 6, 7] 0 1 []).2.1 =
      ⟨Status.failed,
       (successIdxs faultC1 1 0 (workingSet [5, 5, 6, 7] 1 []) []).foldl
         (fun _ j => j + 1) 0,
       (workingSet [5, 5, 6, 7] 1 []).length, some "disk error"⟩ :=
  ⟨by decide,
   (fatal_failure_final_state faultC1 [5, 5, 6, 7] 0 1 [] 3 "disk error" (by decide)).1⟩

/-- Claim C4: an insertion failure that violates the uniqueness/duplicate
constraint (either an attempt raising an error naming the constraint, or
the pair being already present so the database raises that violation) is
non-fatal: the whole remaining run is exactly the run that continues with
the next member, with an unchanged operation record — so no failed
status, no surfaced error, and no progress increment for that record. -/
theorem duplicate_violation_nonfatal (fault : Nat → Option String)
    (target i cid : Nat) (rest : List Nat) (op : Operation) (db : DB)
    (h : (∃ msg, fault i = some msg ∧ isDupErr msg = true) ∨
         (fault i = none ∧ (⟨cid, target⟩ : Assoc) ∈ db)) :
    runLoop fault target i (cid :: rest) op db =
      runLoop fault target (i + 1) rest op db := by
  rcases h with ⟨msg, hf, hd⟩ | ⟨hf, hm⟩
  · exact runLoop_skipFault_eq fault target i cid rest op db msg hf hd
  · exact runLoop_skipDup_eq fault target i cid rest op db hf hm

theorem duplicate_violation_nonfatal_witness :
    runLoop noFault 1 0 [5] ⟨Status.inProgress, 0, 1, none⟩ [⟨5, 1⟩] =
      runLoop noFault 1 1 [] ⟨Status.inProgress, 0, 1, none⟩ [⟨5, 1⟩] :=
  duplicate_violation_nonfatal noFault 1 0 5 [] ⟨Status.inProgress, 0, 1, none⟩ [⟨5, 1⟩]
    (Or.inr ⟨rfl, by decide⟩)

/-- Claim C9: when the insertion at zero-based working-set position i
succeeds, the observable update writes progress := i + 1 — derived from
the loop position, independent of how many earlier positions were skipped
as duplicate-constraint failures (the record `op` below may carry any
progress value). -/
theorem progress_position_derived (fault : Nat → Option String)
    (target i cid : Nat) (rest : List Nat) (op : Operation) (db : DB)
    (hf : fault i = none) (hm : (⟨cid, target⟩ : Assoc) ∉ db) :
    (runLoop fault target i (cid :: rest) op db).1 =
      ({ op with progress := i + 1 } : Operation) ::
        (runLoop fault target (i + 1) rest { op with progress := i + 1 }
          ((⟨cid, target⟩ : Assoc) :: db)).1 := by
  rw [runLoop_insert_eq fault target i cid rest op db hf hm]

theorem progress_position_derived_witness :
    (runLoop noFault 1 2 [6] ⟨Status.inProgress, 1, 3, none⟩ [⟨5, 1⟩]).1 =
      (⟨Status.inProgress, 3, 3, none⟩ : Operation) ::
        (runLoop noFault 1 3 [] ⟨Status.inProgress, 3, 3, none⟩
          [⟨6, 1⟩, ⟨5, 1⟩]).1 :=
  progress_position_derived noFault 1 2 6 [] ⟨Status.inProgress, 1, 3, none⟩ [⟨5, 1⟩]
    rfl (by decide)

/-- A non-terminal state with no error message is opStep-below anything. -/
theorem opStep_of_active (a b : Operation)
    (h1 : a.status = Status.pending ∨ a.status = Status.inProgress)
    (h2 : a.error_message = none) : opStep a b := by
  constructor
  · intro hterm
    rcases h1 with h1 | h1 <;> rcases hterm with ht | ht <;> rw [h1] at ht <;> cases ht
  · intro m hm
    rw [h2] at hm
    cases hm

/-- The states the loop emits, started from an in-progress record with no
error message, are pairwise opStep-related, and only failed states carry
an error message. -/
theorem runLoop_pairwise (fault : Nat → Option String) (target : Nat) :
    ∀ (todo : List Nat) (i : Nat) (op : Operation) (db : DB),
      op.status = Status.inProgress → op.error_message = none →
      List.Pairwise opStep (runLoop fault target i todo op db).1 ∧
      ∀ s ∈ (runLoop fault target i todo op db).1,
        s.error_message ≠ none → s.status = Status.failed := by
  intro todo
  induction todo with
  | nil =>
      intro i op db h1 h2
      rw [runLoop_nil]
      refine ⟨List.pairwise_singleton _ _, ?_⟩
      intro s hs
      simp only [List.mem_singleton] at hs
      subst hs
      intro hne
      exact absurd h2 hne
  | cons cid rest ih =>
      intro i op db h1 h2
      rcases hf : fault i with _ | m
      · by_cases hm : (⟨cid, target⟩ : Assoc) ∈ db
        · rw [runLoop_skipDup_eq fault target i cid rest op db hf hm]
          exact ih (i + 1) op db h1 h2
        · rw [runLoop_insert_eq fault target i cid rest op db hf hm]
          have hih := ih (i + 1) { op with progress := i + 1 }
            ((⟨cid, target⟩ : Assoc) :: db) h1 h2
          refine ⟨List.Pairwise.cons ?_ hih.1, ?_⟩
          · intro b hb
            exact opStep_of_active _ b (Or.inr h1) h2
          · intro s hs
            simp only [List.mem_cons] at hs
            rcases hs with hs | hs
            · subst hs
              intro hne
              exact absurd h2 hne
            · exact hih.2 s hs
      · by_cases hd : isDupErr m = true
        · rw [runLoop_skipFault_eq fault target i cid rest op db m hf hd]
          exact ih (i + 1) op db h1 h2
        · rw [runLoop_fatal_eq fault target i cid rest op db m hf hd]
          constructor
          · refine List.Pairwise.cons ?_ (List.pairwise_singleton _ _)
            intro b hb
            simp only [List.mem_singleton] at hb
            subst hb
            constructor
            · intro _
              rfl
            · intro m' hm'
              have hm'' : op.error_message = some m' := hm'
              rw [h2] at hm''
              cases hm''

          · intro s hs
            simp only [List.mem_cons, List.not_mem_nil, or_false] at hs
            rcases hs with hs | hs <;> subst hs <;> intro _ <;> rfl

/-- Claim C7: across all states of an operation observable by a status
poll, a terminal status (completed or failed) is never changed afterwards,
an error message once set is never changed afterwards (it is set at most
once, since every record starts with none), and an error message is
present only in failed states. -/
theorem terminal_status_and_error_message (fault : Nat → Option String)
    (company_ids : List Nat) (source target : Nat) (db : DB) :
    List.Pairwise opStep
      (add_companies_to_collection_task fault company_ids source target db).1 ∧
    ∀ s ∈ (add_companies_to_collection_task fault company_ids source target db).1,
      s.error_message ≠ none → s.status = Status.failed := by
  have hl := runLoop_pairwise fault target (workingSet company_ids target db) 0
    ⟨.inProgress, 0, (workingSet company_ids target db).length, none⟩ db rfl rfl
  constructor
  · simp only [add_companies_to_collection_task]
    refine List.Pairwise.cons ?_ (List.Pairwise.cons ?_ (List.Pairwise.cons ?_
      (List.Pairwise.cons ?_ hl.1))) <;>
      · intro b hb
        first
        | exact opStep_of_active _ b (Or.inl rfl) rfl
        | exact opStep_of_active _ b (Or.inr rfl) rfl
  · intro s hs
    simp only [add_companies_to_collection_task, List.mem_cons] at hs
    rcases hs with h | h | h | h | h
    · subst h; intro hne; exact absurd rfl hne
    · subst h; intro hne; exact absurd rfl hne
    · subst h; intro hne; exact absurd rfl hne
    · subst h; intro hne; exact absurd rfl hne
    · exact hl.2 s h

theorem terminal_status_and_error_message_witness :
    (⟨Status.failed, 0, 1, some "boom"⟩ : Operation).status = Status.failed :=
  (terminal_status_and_error_message (fun _ => some "boom") [9] 0 1 []).2
    ⟨Status.failed, 0, 1, some "boom"⟩ (by decide) (by decide)

/-- The validation count of the add-selected endpoint (the size of the
set of requested ids present in the source) equals the request length
exactly when the request list is duplicate-free and every requested id is
a member of the source. -/
theorem dedup_filter_length_eq_iff (db : DB) (src : Nat) (ids : List Nat) :
    ((ids.filter (fun cid => decide ((⟨cid, src⟩ : Assoc) ∈ db))).dedup).length = ids.length ↔
      ids.Nodup ∧ ∀ cid ∈ ids, (⟨cid, src⟩ : Assoc) ∈ db := by
  constructor
  · intro h
    have h1 : List.Sublist
        ((ids.filter (fun cid => decide ((⟨cid, src⟩ : Assoc) ∈ db))).dedup)
        (ids.filter (fun cid => decide ((⟨cid, src⟩ : Assoc) ∈ db))) :=
      List.dedup_sublist _
    have h2 : List.Sublist (ids.filter (fun cid => decide ((⟨cid, src⟩ : Assoc) ∈ db))) ids :=
      List.filter_sublist ids
    have hl1 := h1.length_le
    have hl2 := h2.length_le
    have hfl : (ids.filter (fun cid => decide ((⟨cid, src⟩ : Assoc) ∈ db))).length =
        ids.length := by omega
    have hfeq : ids.filter (fun cid => decide ((⟨cid, src⟩ : Assoc) ∈ db)) = ids :=
      h2.eq_of_length hfl
    have hdeq : (ids.filter (fun cid => decide ((⟨cid, src⟩ : Assoc) ∈ db))).dedup =
        ids.filter (fun cid => decide ((⟨cid, src⟩ : Assoc) ∈ db)) :=
      h1.eq_of_length (by omega)
    constructor
    · have hnd : (ids.filter (fun cid => decide ((⟨cid, src⟩ : Assoc) ∈ db))).Nodup :=
        List.dedup_eq_self.mp hdeq
      rw [hfeq] at hnd
      exact hnd
    · intro cid hcid
      have := List.filter_eq_self.mp hfeq cid hcid
      simpa using this
  · intro h
    have hfeq : ids.filter (fun cid => decide ((⟨cid, src⟩ : Assoc) ∈ db)) = ids :=
      List.filter_eq_self.mpr (fun a ha => by simpa using h.2 a ha)
    rw [hfeq, List.dedup_eq_self.mpr h.1]

/-- Full outcome characterization of the add-selected endpoint when both
collections exist: it returns the canonical registration exactly when the
request list is empty, or duplicate-free with every id a member of the
source; otherwise it returns the invalid-membership error. -/
theorem add_companies_ok_iff (collections : List Nat) (db : DB)
    (src tgt : Nat) (ids : List Nat)
    (hs : src ∈ collections) (ht : tgt ∈ collections) :
    (add_companies_to_collection collections db src tgt ids =
        Except.ok ⟨⟨.pending, 0, ids.length, none⟩, ids, src, tgt⟩ ↔
      (ids = [] ∨ (ids.Nodup ∧ ∀ cid ∈ ids, (⟨cid, src⟩ : Assoc) ∈ db))) ∧
    (add_companies_to_collection collections db src tgt ids =
        Except.error ApiError.invalidMembership ↔
      ¬ (ids = [] ∨ (ids.Nodup ∧ ∀ cid ∈ ids, (⟨cid, src⟩ : Assoc) ∈ db))) := by
  unfold add_companies_to_collection
  rw [if_pos ⟨hs, ht⟩]
  by_cases he : ids.isEmpty
  · have hids : ids = [] := List.isEmpty_iff.mp he
    rw [if_pos he]
    subst hids
    simp
  · rw [if_neg he]
    have hne : ¬ ids = [] := by
      intro hh
      subst hh
      exact he rfl
    by_cases hv : ((ids.filter (fun cid =>
        decide ((⟨cid, src⟩ : Assoc) ∈ db))).dedup).length = ids.length
    · rw [if_pos hv]
      have hch := (dedup_filter_length_eq_iff db src ids).mp hv
      refine ⟨⟨fun _ => Or.inr hch, fun _ => rfl⟩,
        ⟨fun hcontra => ?_, fun hcon => absurd (Or.inr hch) hcon⟩⟩
      simp at hcontra
    · rw [if_neg hv]
      have hnot : ¬ (ids.Nodup ∧ ∀ cid ∈ ids, (⟨cid, src⟩ : Assoc) ∈ db) :=
        fun hc => hv ((dedup_filter_length_eq_iff db src ids).mpr hc)
    
      simp [hne, hnot]

/-- Claim C5 counterexample: source collection 0 contains company 5, so
every id requested in [5, 5] is currently a member of the source, yet the
call fails with the invalid-membership error: the endpoint compares the
size of the SET of valid requested ids (here 1) against the length of the
request list (here 2), so duplicate-containing lists of valid members are
rejected, contradicting the claimed "fails if and only if some requested
memberId is not a member of the source". -/
theorem invalid_membership_counterexample :
    add_companies_to_collection [0, 1] [⟨5, 0⟩] 0 1 [5, 5] =
      Except.error ApiError.invalidMembership ∧
    (([5, 5] : List Nat).all
      (fun cid => decide ((⟨cid, 0⟩ : Assoc) ∈ ([⟨5, 0⟩] : DB)))) = true :=
  ⟨rfl, rfl⟩

/-- Claim C5 (amended): when source and target exist, the add-selected
call fails with the invalid-membership client error if and only if the
request list is non-empty and not (duplicate-free with every requested id
a member of the source); equivalently it succeeds — registering the
pending operation, with total = request length, before any worker is
dispatched — if and only if the list is empty or duplicate-free with all
ids members of the source.  (The failure indeed happens before
registration or dispatch: the error branch produces no Dispatch.)  The
original claim must be weakened only on duplicate-containing request
lists, which are rejected even when all their ids are valid members. -/
theorem invalid_membership_characterization (collections : List Nat) (db : DB)
    (src tgt : Nat) (ids : List Nat)
    (hs : src ∈ collections) (ht : tgt ∈ collections) :
    (add_companies_to_collection collections db src tgt ids =
        Except.error ApiError.invalidMembership ↔
      ¬ (ids = [] ∨ (ids.Nodup ∧ ∀ cid ∈ ids, (⟨cid, src⟩ : Assoc) ∈ db))) ∧
    (add_companies_to_collection collections db src tgt ids =
        Except.ok ⟨⟨.pending, 0, ids.length, none⟩, ids, src, tgt⟩ ↔
      (ids = [] ∨ (ids.Nodup ∧ ∀ cid ∈ ids, (⟨cid, src⟩ : Assoc) ∈ db))) :=
  ⟨(add_companies_ok_iff collections db src tgt ids hs ht).2,
   (add_companies_ok_iff collections db src tgt ids hs ht).1⟩

theorem invalid_membership_characterization_witness :
    add_companies_to_collection [0, 1] [⟨5, 0⟩] 0 1 [5, 6] =
      Except.error ApiError.invalidMembership :=
  (invalid_membership_characterization [0, 1] [⟨5, 0⟩] 0 1 [5, 6]
      (by decide) (by decide)).1.mpr (by decide)

/-- With no injected faults the loop always ends in completed status. -/
theorem runLoop_noFault_completed (target : Nat) :
    ∀ (todo : List Nat) (i : Nat) (op : Operation) (db : DB),
      (runLoop noFault target i todo op db).2.1.status = Status.completed := by
  intro todo
  induction todo with
  | nil =>
      intro i op db
      rw [runLoop_nil]
  | cons cid rest ih =>
      intro i op db
      by_cases hm : (⟨cid, target⟩ : Assoc) ∈ db
      · rw [runLoop_skipDup_eq noFault target i cid rest op db rfl hm]
        exact ih (i + 1) op db
      · rw [runLoop_insert_eq noFault target i cid rest op db rfl hm]
        exact ih (i + 1) { op with progress := i + 1 } ((⟨cid, target⟩ : Assoc) :: db)

/-- With no injected faults the loop's final table keeps every existing
row and holds an association for every member of the processed list. -/
theorem runLoop_noFault_db (target : Nat) :
    ∀ (todo : List Nat) (i : Nat) (op : Operation) (db : DB),
      (∀ a ∈ db, a ∈ (runLoop noFault target i todo op db).2.2) ∧
      (∀ cid ∈ todo, (⟨cid, target⟩ : Assoc) ∈ (runLoop noFault target i todo op db).2.2) := by
  intro todo
  induction todo with
  | nil =>
      intro i op db
      rw [runLoop_nil]
      exact ⟨fun a ha => ha, fun cid hc => absurd hc (List.not_mem_nil cid)⟩
  | cons cid rest ih =>
      intro i op db
      by_cases hm : (⟨cid, target⟩ : Assoc) ∈ db
      · rw [runLoop_skipDup_eq noFault target i cid rest op db rfl hm]
        have hih := ih (i + 1) op db
        refine ⟨hih.1, ?_⟩
        intro c hc
        rcases List.mem_cons.mp hc with hc | hc
        · subst hc
          exact hih.1 _ hm
        · exact hih.2 c hc
      · rw [runLoop_insert_eq noFault target i cid rest op db rfl hm]
        have hih := ih (i + 1) { op with progress := i + 1 } ((⟨cid, target⟩ : Assoc) :: db)
        refine ⟨?_, ?_⟩
        · intro a ha
          exact hih.1 a (List.mem_cons_of_mem _ ha)
        · intro c hc
          rcases List.mem_cons.mp hc with hc | hc
          · subst hc
            exact hih.1 _ (List.mem_cons_self _ _)
          · exact hih.2 c hc

/-- A worker run whose working set is empty terminates immediately:
total 0, progress 0, completed, table untouched. -/
theorem task_empty_workingSet (fault : Nat → Option String) (ids : List Nat)
    (src tgt : Nat) (db : DB) (h : workingSet ids tgt db = []) :
    (add_companies_to_collection_task fault ids src tgt db).2.1 =
      ⟨Status.completed, 0, 0, none⟩ ∧
    (add_companies_to_collection_task fault ids src tgt db).2.2 = db := by
  refine ⟨?_, ?_⟩ <;> simp [add_companies_to_collection_task, h, runLoop_nil]

/-- Claim C6: dispatching add-selected twice in sequence with the same
member list against the same source and target collections, with no
interleaved activity and no persistence faults: the first worker run
completes and leaves every requested member associated with the target
(inserting all members not already present); the second dispatch succeeds
again, and its worker terminates with total = 0, progress = 0 and status
completed, leaving the membership table unchanged. -/
theorem add_selected_idempotent (collections : List Nat) (db : DB)
    (src tgt : Nat) (ids : List Nat) (d : Dispatch)
    (h : add_companies_to_collection collections db src tgt ids = Except.ok d) :
    (∀ cid ∈ ids,
        (⟨cid, tgt⟩ : Assoc) ∈
          (add_companies_to_collection_task noFault ids src tgt db).2.2) ∧
    (add_companies_to_collection_task noFault ids src tgt db).2.1.status =
      Status.completed ∧
    add_companies_to_collection collections
        (add_companies_to_collection_task noFault ids src tgt db).2.2 src tgt ids =
      Except.ok ⟨⟨.pending, 0, ids.length, none⟩, ids, src, tgt⟩ ∧
    (add_companies_to_collection_task noFault ids src tgt
        (add_companies_to_collection_task noFault ids src tgt db).2.2).2.1 =
      ⟨Status.completed, 0, 0, none⟩ ∧
    (add_companies_to_collection_task noFault ids src tgt
        (add_companies_to_collection_task noFault ids src tgt db).2.2).2.2 =
      (add_companies_to_collection_task noFault ids src tgt db).2.2 := by
  by_cases hc : src ∈ collections ∧ tgt ∈ collections
  case neg =>
    exfalso
    simp [add_companies_to_collection, hc] at h
  have hmem_src : ids = [] ∨ (ids.Nodup ∧ ∀ cid ∈ ids, (⟨cid, src⟩ : Assoc) ∈ db) := by
    by_cases he : ids.isEmpty
    · exact Or.inl (List.isEmpty_iff.mp he)
    · right
      by_cases hv : ((ids.filter (fun cid =>
          decide ((⟨cid, src⟩ : Assoc) ∈ db))).dedup).length = ids.length
      · exact (dedup_filter_length_eq_iff db src ids).mp hv
      · exfalso
        simp [add_companies_to_collection, hc.1, hc.2, he, hv] at h
  have hdb := runLoop_noFault_db tgt (workingSet ids tgt db) 0
    ⟨.inProgress, 0, (workingSet ids tgt db).length, none⟩ db
  have hmono : ∀ a ∈ db,
      a ∈ (add_companies_to_collection_task noFault ids src tgt db).2.2 := hdb.1
  have hall : ∀ cid ∈ ids,
      (⟨cid, tgt⟩ : Assoc) ∈ (add_companies_to_collection_task noFault ids src tgt db).2.2 := by
    intro cid hcid
    by_cases hmm : (⟨cid, tgt⟩ : Assoc) ∈ db
    · exact hmono _ hmm
    · exact hdb.2 cid (List.mem_filter.mpr ⟨hcid, decide_eq_true hmm⟩)
  have hcompleted :
      (add_companies_to_collection_task noFault ids src tgt db).2.1.status =
        Status.completed :=
    runLoop_noFault_completed tgt (workingSet ids tgt db) 0
      ⟨.inProgress, 0, (workingSet ids tgt db).length, none⟩ db
  have hok2 : add_companies_to_collection collections
      (add_companies_to_collection_task noFault ids src tgt db).2.2 src tgt ids =
      Except.ok ⟨⟨.pending, 0, ids.length, none⟩, ids, src, tgt⟩ := by
    apply (add_companies_ok_iff collections _ src tgt ids hc.1 hc.2).1.mpr
    rcases hmem_src with hmem_src | hmem_src
    · exact Or.inl hmem_src
    · exact Or.inr ⟨hmem_src.1, fun cid hcid => hmono _ (hmem_src.2 cid hcid)⟩
  have hws2 : workingSet ids tgt
      (add_companies_to_collection_task noFault ids src tgt db).2.2 = [] := by
    apply List.filter_eq_nil_iff.mpr
    intro cid hcid
    simp [hall cid hcid]
  have hfin := task_empty_workingSet noFault ids src tgt
    (add_companies_to_collection_task noFault ids src tgt db).2.2 hws2
  exact ⟨hall, hcompleted, hok2, hfin.1, hfin.2⟩

theorem add_selected_idempotent_witness :
    (add_companies_to_collection_task noFault [7] 0 1 [⟨7, 0⟩]).2.1.status =
      Status.completed ∧
    (add_companies_to_collection_task noFault [7] 0 1
        (add_companies_to_collection_task noFault [7] 0 1 [⟨7, 0⟩]).2.2).2.1 =
      ⟨Status.completed, 0, 0, none⟩ :=
  ⟨(add_selected_idempotent [0, 1] [⟨7, 0⟩] 0 1 [7]
      ⟨⟨Status.pending, 0, 1, none⟩, [7], 0, 1⟩ rfl).2.1,
   (add_selected_idempotent [0, 1] [⟨7, 0⟩] 0 1 [7]
      ⟨⟨Status.pending, 0, 1, none⟩, [7], 0, 1⟩ rfl).2.2.2.1⟩

/-- Claim C10: an add-selected call with an empty member list whose
collections exist succeeds, skipping the source-membership validation
entirely (the outcome is independent of the membership table), registers
the operation with total = 0, and the worker terminates with progress 0
and status completed (under any fault oracle: the empty working set never
reaches an insert attempt). -/
theorem empty_request_completes (collections : List Nat) (src tgt : Nat)
    (hs : src ∈ collections) (ht : tgt ∈ collections)
    (db db2 : DB) (fault : Nat → Option String) :
    add_companies_to_collection collections db src tgt [] =
      Except.ok ⟨⟨.pending, 0, 0, none⟩, [], src, tgt⟩ ∧
    add_companies_to_collection collections db src tgt [] =
      add_companies_to_collection collections db2 src tgt [] ∧
    (add_companies_to_collection_task fault [] src tgt db).2.1 =
      ⟨Status.completed, 0, 0, none⟩ := by
  have h1 : add_companies_to_collection collections db src tgt [] =
      Except.ok ⟨⟨.pending, 0, 0, none⟩, [], src, tgt⟩ := by
    simp [add_companies_to_collection, hs, ht]
  have h2 : add_companies_to_collection collections db2 src tgt [] =
      Except.ok ⟨⟨.pending, 0, 0, none⟩, [], src, tgt⟩ := by
    simp [add_companies_to_collection, hs, ht]
  exact ⟨h1, h1.trans h2.symm, (task_empty_workingSet fault [] src tgt db rfl).1⟩

theorem empty_request_completes_witness :
    add_companies_to_collection [0, 1] [⟨9, 9⟩] 0 1 [] =
      Except.ok ⟨⟨Status.pending, 0, 0, none⟩, [], 0, 1⟩ ∧
    (add_companies_to_collection_task noFault [] 0 1 [⟨9, 9⟩]).2.1 =
      ⟨Status.completed, 0, 0, none⟩ :=
  ⟨(empty_request_completes [0, 1] 0 1 (by decide) (by decide) [⟨9, 9⟩] [] noFault).1,
   (empty_request_completes [0, 1] 0 1 (by decide) (by decide) [⟨9, 9⟩] [] noFault).2.2⟩

/-- Claim C8: concrete scenario — source collection 0 has members
{1, 2, 3} and target collection 1 has member {2}.  The add-all dispatch
registers the full source membership [1, 2, 3] (total 3); the worker's
total resolves to 2 (the working set is members 1 and 3, visible as the
fourth observable state), and on completion the final record is
completed with progress 2 and total 2, and the target collection's
membership is exactly {1, 2, 3}. -/
theorem add_all_concrete_scenario :
    add_all_companies_to_collection [0, 1] [⟨1, 0⟩, ⟨2, 0⟩, ⟨3, 0⟩, ⟨2, 1⟩] 0 1 =
      Except.ok ⟨⟨Status.pending, 0, 3, none⟩, [1, 2, 3], 0, 1⟩ ∧
    (add_companies_to_collection_task noFault [1, 2, 3] 0 1
        [⟨1, 0⟩, ⟨2, 0⟩, ⟨3, 0⟩, ⟨2, 1⟩]).1[3]? =
      some ⟨Status.inProgress, 0, 2, none⟩ ∧
    (add_companies_to_collection_task noFault [1, 2, 3] 0 1
        [⟨1, 0⟩, ⟨2, 0⟩, ⟨3, 0⟩, ⟨2, 1⟩]).2.1 =
      ⟨Status.completed, 2, 2, none⟩ ∧
    (((add_companies_to_collection_task noFault [1, 2, 3] 0 1
          [⟨1, 0⟩, ⟨2, 0⟩, ⟨3, 0⟩, ⟨2, 1⟩]).2.2.filter
        (fun a => decide (a.collection_id = 1))).map
        (fun a => a.company_id)).toFinset = ({1, 2, 3} : Finset Nat) := by
  refine ⟨rfl, rfl, rfl, by decide⟩
